import Mathlib

/-!
Shallow embedding of `simple_action_server/main.py`: the request-resolution
engine (`_find_action`, `_find_module`, `_find_catchall`, `_save_action`,
`_load_action_modules`, `_dispatch`, `handle_expect_100`) together with the
small pieces of Python / stdlib behaviour they rely on (string splitting as
done by `urllib.parse.urlparse` on origin-form request targets, `str.join`,
`str.lstrip`, `str.strip`, `str.lower`/`upper`, attribute lookup on modules,
and `dict` insertion semantics).

Python string operations are modelled over `List Char` so that every
definition reduces in the kernel.  The import machinery (`importlib`) and the
filesystem are external collaborators: they are modelled as an explicit
environment of oracles describing, for each dotted module name, whether
`find_spec` finds a spec, raises, or returns `None`, and whether the
subsequent `spec.loader.load_module()` succeeds or raises.
-/

namespace SimpleActionServer

/-- `str.lower` (`self.command.lower()`): ASCII lowercasing, char by char. -/
def pyLower (s : String) : String := String.mk (s.data.map Char.toLower)

/-- `str.upper` (`verb.upper()` in `action_identifier`). -/
def pyUpper (s : String) : String := String.mk (s.data.map Char.toUpper)

/-- `str.lstrip('_')`: drop every leading underscore
(`'_'.join([prefix, function]).lstrip('_')` in `_find_action`). -/
def lstripUnderscore (s : String) : String :=
  String.mk (s.data.dropWhile (fun c => c = '_'))

/-- `str.strip()`: drop leading and trailing whitespace
(`' '.join([prefix, '404']).strip()` in `_find_action`). -/
def pyStrip (s : String) : String :=
  String.mk (((s.data.dropWhile Char.isWhitespace).reverse.dropWhile
    Char.isWhitespace).reverse)

/-- `sep.join(list)` for strings (`'_'.join(parts)`, `' '.join(...)`). -/
def joinWith (sep : String) : List String → String
  | [] => ""
  | [s] => s
  | s :: rest => s ++ sep ++ joinWith sep rest

/-- `str.split(c)` on a single-character separator, Python semantics:
`"".split('/') == ['']`, `"/a/b".split('/') == ['', 'a', 'b']`. -/
def splitOnChar (c : Char) : List Char → List (List Char)
  | [] => [[]]
  | x :: xs =>
    if x = c then [] :: splitOnChar c xs
    else
      match splitOnChar c xs with
      | [] => [[x]]
      | g :: gs => (x :: g) :: gs

/-- Split a character list at the first occurrence of `c`: returns the part
before and the part after (separator removed).  If `c` does not occur the
whole list is "before" and "after" is empty. -/
def splitAtFirst (c : Char) : List Char → List Char × List Char
  | [] => ([], [])
  | x :: xs =>
    if x = c then ([], xs)
    else
      let p := splitAtFirst c xs
      (x :: p.1, p.2)

/-- The result of `urllib.parse.urlparse` restricted to the fields the server
reads (`.path` and `.query`).  Modelled for origin-form request targets
(no scheme, netloc or `;`-params): the fragment is everything after the first
`#`, the query everything after the first `?` before the fragment, the path
what precedes both. -/
structure ParsedUrl where
  path : String
  query : String
deriving DecidableEq, Repr

/-- `urllib.parse.urlparse` on an origin-form request target: the fragment
part is split off at the first `#`, then the query at the first `?`. -/
def pyUrlparse (u : String) : ParsedUrl :=
  ⟨String.mk (splitAtFirst '?' (splitAtFirst '#' u.data).1).1,
   String.mk (splitAtFirst '?' (splitAtFirst '#' u.data).1).2⟩

/-- `list(filter(None, urlparse(path).path.split('/')))`: the non-empty path
segments of the request target (`_find_action`). -/
def splitPath (u : String) : List String :=
  (((splitOnChar '/' (pyUrlparse u).path.data).map String.mk).filter
    (fun s => s ≠ ""))

/-- `action_identifier(verb, url) = verb.upper() + ' ' + url`. -/
def actionIdentifier (verb url : String) : String :=
  pyUpper verb ++ " " ++ url

/-- An inbound request as the resolver sees it: `self.command` (the HTTP
verb from the request line) and `self.path` (the raw request target). -/
structure Request where
  command : String
  rawPath : String
deriving DecidableEq, Repr

/-- `self._request_identifier() = action_identifier(self.command,
self.parsed_url.path)` where `parsed_url = urlparse(self.path)`. -/
def requestIdentifier (r : Request) : String :=
  actionIdentifier r.command (pyUrlparse r.rawPath).path

/-- A loaded Python module: its `__name__` (the full dotted path used to
build submodule lookup names in `_find_module`) and its function attributes,
each an opaque handler reference identified by a `Nat`. -/
structure PyModule where
  name : String
  attrs : List (String × Nat)
deriving DecidableEq, Repr

/-- Ordered-association-list lookup: the semantics of `k in d` / `d[k]` and
`hasattr`/`getattr` used by the resolver. -/
def lookupStr {α : Type} : List (String × α) → String → Option α
  | [], _ => none
  | (k', v) :: rest, k => if k' = k then some v else lookupStr rest k

/-- `d[k] = v` on a Python `dict`: replace in place if the key exists,
else append (insertion order preserved). -/
def dictInsert {α : Type} : List (String × α) → String → α → List (String × α)
  | [], k, v => [(k, v)]
  | (k', v') :: rest, k, v =>
    if k' = k then (k', v) :: rest else (k', v') :: dictInsert rest k v

/-- `hasattr(module, a)` followed by `getattr(module, a)`, as one lookup. -/
def getattrOpt (m : PyModule) (attr : String) : Option Nat :=
  lookupStr m.attrs attr

/-- The handler slot of an `Action`.  `Action.handler` is either a plain
function picked off a module (`fn`), or — in the 404 branch of
`_find_action`, which builds `Action(self._actions[name], 'error')` — a
previously registered `Action` object used as the callable (`wrap`). -/
inductive PyHandler where
  | fn (id : Nat)
  | wrap (handler : PyHandler) (origin : String) (originalUrl : Option ParsedUrl)
deriving DecidableEq, Repr

/-- The `Action` class: a handler, an origin tag, and the bound keyword
arguments.  The only keyword ever bound by the server is
`original_url=self.parsed_url` (in `_save_action`); `Action`s created in the
404 branch and via `add_action` bind nothing. -/
structure PyAction where
  handler : PyHandler
  origin : String
  originalUrl : Option ParsedUrl
deriving DecidableEq, Repr

/-- Origin kind of a loaded source, the second component of the tuples
stored in `_action_modules`: `'module'` or `'path'`. -/
inductive SourceOrigin where
  | module
  | path
deriving DecidableEq, Repr

/-- One entry of the configured `action_sources` list.  A `str` item is a
dotted module/package identifier; a `dict` item carries a `'module'`,
`'package'` or `'path'` key; anything else (a `dict` without those keys, or
a non-`str` non-`dict` item) sets neither `name` nor `path` and is skipped
by `_load_action_modules`. -/
inductive SrcItem where
  | str (s : String)
  | dictModule (s : String)
  | dictPath (p : String)
  | other
deriving DecidableEq, Repr

/-- The Python exceptions the resolver distinguishes.  `nameError v` stands
for the `UnboundLocalError` (a `NameError` subclass) raised when local
variable `v` is read before assignment. -/
inductive PyError where
  | moduleNotFoundError
  | valueError
  | typeError
  | attributeError
  | nameError (v : String)
  | otherError
deriving DecidableEq, Repr

/-- Outcome of `spec.loader.load_module()` (or of `import_module`). -/
inductive LoadResult where
  | ok (m : PyModule)
  | raises (e : PyError)
deriving DecidableEq, Repr

/-- Outcome of `importlib.util.find_spec(name)`: a spec (whose subsequent
load has outcome `r`), `None`, or an exception raised by the lookup
itself. -/
inductive FindSpecResult where
  | notFound
  | raisesSpec (e : PyError)
  | found (r : LoadResult)
deriving DecidableEq, Repr

/-- The import machinery and the filesystem, as oracles.  `find_spec n`
describes `importlib.util.find_spec(n)` together with what
`spec.loader.load_module()` would then do; `importPath p` describes
`import_module(os.path.basename(os.path.abspath(p)))` after appending the
absolute path to `sys.path` (the `'path'` branch of
`_load_action_modules`). -/
structure Env where
  find_spec : String → FindSpecResult
  importPath : String → LoadResult

/-- The shared class-level state of `ActionRequestHandler`:
`cls._actions` (the Action Cache, also holding pre-registered actions),
`cls._action_modules` (`None` until `_load_action_modules` has run, then the
catalog mapping source key to `(module, origin)`), `cls._fallback`, and
`cls.action_sources`. -/
structure State where
  actions : List (String × PyAction)
  modules : Option (List (String × PyModule × SourceOrigin))
  fallback : Bool
  sources : List SrcItem
deriving DecidableEq, Repr

/-- `_find_catchall(module, command)` and, shared with the function-matching
loop, the shape "for each name in the list: if `hasattr(module, name)`,
return `getattr(module, name)`". -/
def firstExistingAttr (m : PyModule) : List String → Option Nat
  | [] => none
  | n :: rest =>
    match getattrOpt m n with
    | some h => some h
    | none => firstExistingAttr m rest

/-- `_find_catchall`: try a function literally named the lowercased verb,
then one named `"any"` (`methods = [command.lower(), 'any']`). -/
def findCatchall (m : PyModule) (command : String) : Option Nat :=
  firstExistingAttr m [pyLower command, "any"]

/-- `prefixes = [self.command.lower(), 'any', '']` in `_find_action`. -/
def prefixList (command : String) : List String :=
  [pyLower command, "any", ""]

/-- The inner candidate loop of `_find_action`:
`for prefix in prefixes: try_function = '_'.join([prefix, function]).lstrip('_');
if hasattr(module, try_function): return getattr(module, try_function)`. -/
def tryFunction (m : PyModule) (function : String) : List String → Option Nat
  | [] => none
  | pfx :: rest =>
    let try_function := lstripUnderscore (pfx ++ "_" ++ function)
    match getattrOpt m try_function with
    | some h => some h
    | none => tryFunction m function rest

/-- The `while parts:` matching loop of `_find_action`, with the iteration
count made explicit as structural fuel: each iteration pops the last element
of `parts` (when fallback is enabled), so the loop runs at most
`parts.length` times — `matchLoop` below instantiates the fuel with exactly
that bound.  Per iteration: `function = '_'.join(parts)`; try the prefixed
candidates; on a hit the origin is `'direct'` if `remainder` is empty and
`'fallback'` otherwise; on a miss, `break` unless `self._fallback`, else
`remainder.insert(0, parts.pop(-1))` and loop. -/
def matchLoopFuel (m : PyModule) (prefixes : List String) (fallback : Bool) :
    Nat → List String → List String → Option (Nat × String)
  | _, [], _ => none
  | 0, _ :: _, _ => none
  | fuel + 1, p :: ps, remainder =>
    let function := joinWith "_" (p :: ps)
    match tryFunction m function prefixes with
    | some h => some (h, if remainder.isEmpty then "direct" else "fallback")
    | none =>
      if fallback then
        matchLoopFuel m prefixes fallback fuel ((p :: ps).dropLast)
          ((p :: ps).getLastD "" :: remainder)
      else none

/-- The `while parts:` loop entered with `remainder = []` and the remaining
segments `parts` (lines 266-283 of `main.py`). -/
def matchLoop (m : PyModule) (prefixes : List String) (fallback : Bool)
    (parts remainder : List String) : Option (Nat × String) :=
  matchLoopFuel m prefixes fallback parts.length parts remainder

/-- The `'module'` branch of `_find_module`: while segments remain, build
`name = module.__name__ + '.' + part` and call `find_spec`.  A `None` spec,
a `ModuleNotFoundError`/`ValueError` from `find_spec`, or any exception from
`spec.loader.load_module()` puts the segment back and breaks; any other
exception from `find_spec` is caught by no `except` clause and
propagates. -/
def findModuleM (env : Env) : PyModule → List String → Except PyError (PyModule × List String)
  | module, [] => .ok (module, [])
  | module, part :: rest =>
    let name := module.name ++ "." ++ part
    match env.find_spec name with
    | .notFound => .ok (module, part :: rest)
    | .raisesSpec e =>
      if e = .moduleNotFoundError ∨ e = .valueError then .ok (module, part :: rest)
      else .error e
    | .found (.raises _) => .ok (module, part :: rest)
    | .found (.ok m) => findModuleM env m rest

/-- The `'path'` branch of `_find_module` (lines 350-363).  The local
variable `base` is read (`os.path.join(base, part)` when segments remain,
`os.path.abspath(base)` when none do) before any assignment to it — the only
assignment, `base = try_dir`, comes later in the loop body — so Python
raises `UnboundLocalError: local variable 'base' referenced before
assignment` on every execution of this branch, before any directory descent
or module import happens. -/
def findModulePath (parts : List String) : Except PyError (PyModule × List String) :=
  match parts with
  | _ :: _ => .error (.nameError "base")
  | [] => .error (.nameError "base")

/-- `_find_module(identifier, parts)`, dispatching on the origin recorded in
the catalog entry. -/
def findModule (env : Env) (entry : PyModule × SourceOrigin) (parts : List String) :
    Except PyError (PyModule × List String) :=
  match entry.2 with
  | .module => findModuleM env entry.1 parts
  | .path => findModulePath parts

/-- One item of the `_load_action_modules` loop.  For a `str` item,
`find_spec(item)` is consulted and `(load_module(), 'module')` stored under
`name`; only `ModuleNotFoundError` is caught (`except ModuleNotFoundError:
pass`), so a spec lookup or load that raises anything else propagates.  For
a `dict` item with a `'module'`/`'package'` key the code passes the *dict
itself* to `find_spec(item)` instead of the extracted name, which raises an
uncaught exception (`AttributeError`, since `find_spec` calls
`name.startswith` on the dict).  For a `'path'` item, `import_module` of the
directory's basename is stored under the path, with the same
`ModuleNotFoundError`-only handling.  Items that set neither `name` nor
`path` contribute nothing. -/
def loadOne (env : Env) : SrcItem → Except PyError (Option (String × PyModule × SourceOrigin))
  | .str s =>
    match env.find_spec s with
    | .notFound => .ok none
    | .raisesSpec e => if e = .moduleNotFoundError then .ok none else .error e
    | .found (.raises e) => if e = .moduleNotFoundError then .ok none else .error e
    | .found (.ok m) => .ok (some (s, m, .module))
  | .dictModule _ => .error .attributeError
  | .dictPath p =>
    match env.importPath p with
    | .ok m => .ok (some (p, m, .path))
    | .raises e => if e = .moduleNotFoundError then .ok none else .error e
  | .other => .ok none

/-- The `for item in cls.action_sources:` loop, accumulating the catalog
dict in insertion order. -/
def loadAll (env : Env) (acc : List (String × PyModule × SourceOrigin)) :
    List SrcItem → Except PyError (List (String × PyModule × SourceOrigin))
  | [] => .ok acc
  | it :: rest =>
    match loadOne env it with
    | .error e => .error e
    | .ok none => loadAll env acc rest
    | .ok (some (k, v)) => loadAll env (dictInsert acc k v) rest

/-- `_load_action_modules`: a no-op once `cls._action_modules` is not
`None`; otherwise load every configured source.  (On an uncaught exception
Python leaves a partially filled catalog behind; the embedding reports the
exception and does not track the post-exception state, which no theorem
below relies on.) -/
def loadActionModules (env : Env) (st : State) : Except PyError State :=
  match st.modules with
  | some _ => .ok st
  | none =>
    match loadAll env [] st.sources with
    | .error e => .error e
    | .ok catalog => .ok { st with modules := some catalog }

/-- `_save_action(action_name, method, origin)`:
`self._actions[action_name] = Action(method, origin, original_url=self.parsed_url)`
and return the stored Action. -/
def saveAction (st : State) (action_name : String) (h : Nat) (origin : String)
    (u : ParsedUrl) : PyAction × State :=
  let a : PyAction := ⟨.fn h, origin, some u⟩
  (a, { st with actions := dictInsert st.actions action_name a })

/-- `Action(self._actions[name], 'error')` in the 404 branch: a fresh
`Action` whose callable is the stored entry itself (an `Action` is callable)
with origin `'error'` and no bound keyword arguments. -/
def errorAction (stored : PyAction) : PyAction :=
  ⟨.wrap stored.handler stored.origin stored.originalUrl, "error", none⟩

/-- The `for prefix in [self.command, 'ANY', '']:` loop of the 404 branch:
`name = ' '.join([prefix, '404']).strip()`; the first `name` present in
`self._actions` wins. -/
def lookup404Go (actions : List (String × PyAction)) : List String → Option PyAction
  | [] => none
  | pfx :: rest =>
    let name := pyStrip (pfx ++ " " ++ "404")
    match lookupStr actions name with
    | some a => some a
    | none => lookup404Go actions rest

/-- The 404 lookup of `_find_action` (lines 298-302). -/
def lookup404 (actions : List (String × PyAction)) (command : String) : Option PyAction :=
  lookup404Go actions [command, "ANY", ""]

/-- The `for identifier in self._action_modules:` loop of `_find_action`
(lines 258-288): per source, recompute the path segments, descend via
`_find_module`, then — the loaded module object is always truthy, so the
`if module:` guard always passes — run the function-matching loop when
segments remain, or `_find_catchall` (origin `'direct'`) when none do; the
first success wins, otherwise continue with the next source. -/
def resolveViaSources (env : Env) (command rawPath : String) (fallback : Bool) :
    List (String × PyModule × SourceOrigin) → Except PyError (Option (Nat × String))
  | [] => .ok none
  | (_, entry) :: rest =>
    let parts := splitPath rawPath
    match findModule env entry parts with
    | .error e => .error e
    | .ok (module, remaining) =>
      match remaining with
      | _ :: _ =>
        match matchLoop module (prefixList command) fallback remaining [] with
        | some hit => .ok (some hit)
        | none => resolveViaSources env command rawPath fallback rest
      | [] =>
        match findCatchall module command with
        | some h => .ok (some (h, "direct"))
        | none => resolveViaSources env command rawPath fallback rest

/-- The global catch-all sweep of `_find_action` (lines 292-296):
`for _, module in self._action_modules.items(): module = module[0]` then
`_find_catchall`; first hit wins with origin `'catchall'`. -/
def catchallSweep (command : String) :
    List (String × PyModule × SourceOrigin) → Option Nat
  | [] => none
  | (_, entry) :: rest =>
    match findCatchall entry.1 command with
    | some h => some h
    | none => catchallSweep command rest

/-- `_find_action(self, path)`: ensure sources are loaded, check the Action
Cache, resolve through the sources, then the global catch-all sweep (saving
successes via `_save_action`), then the pre-registered 404 actions (not
saved), else `None`. -/
def findAction (env : Env) (r : Request) (st : State) :
    Except PyError (Option PyAction × State) :=
  match loadActionModules env st with
  | .error e => .error e
  | .ok st1 =>
    match lookupStr st1.actions (requestIdentifier r) with
    | some a => .ok (some a, st1)
    | none =>
      match resolveViaSources env r.command r.rawPath st1.fallback (st1.modules.getD []) with
      | .error e => .error e
      | .ok (some (h, origin)) =>
        match saveAction st1 (requestIdentifier r) h origin (pyUrlparse r.rawPath) with
        | (a, st2) => .ok (some a, st2)
      | .ok none =>
        match catchallSweep r.command (st1.modules.getD []) with
        | some h =>
          match saveAction st1 (requestIdentifier r) h "catchall" (pyUrlparse r.rawPath) with
          | (a, st2) => .ok (some a, st2)
        | none =>
          match lookup404 st1.actions r.command with
          | some stored => .ok (some (errorAction stored), st1)
          | none => .ok (none, st1)

/-- A value stored under a key of the `parameters` dict built by
`_dispatch`: the parsed url, the raw query string handed to
`urllib.parse.parse_qs` (the stdlib parser is an external collaborator and
is modelled by its input), or the form/file field mappings from `do_POST`
(field name to the list of `cgi.FieldStorage` entries, as opaque ids). -/
inductive ParamVal where
  | url (u : ParsedUrl)
  | query (raw : String)
  | form (f : List (String × List Nat))
  | files (f : List (String × List Nat))
deriving DecidableEq, Repr

/-- Lines 219-230 of `_dispatch`: `parameters = {"url": self.parsed_url}`,
then `query` when `self.parsed_url.query` is truthy (non-empty), then
`form`/`files` when truthy (`None` and `{}` are both falsy, modelled as the
empty list). -/
def buildParams (u : ParsedUrl) (form files : List (String × List Nat)) :
    List (String × ParamVal) :=
  let params := [("url", ParamVal.url u)]
  let params := if u.query ≠ "" then params ++ [("query", ParamVal.query u.query)] else params
  let params := if form ≠ [] then params ++ [("form", ParamVal.form form)] else params
  if files ≠ [] then params ++ [("files", ParamVal.files files)] else params

/-- What `_dispatch` hands to the network layer: `action(self, **parameters)`
— the request-handler object is always the single positional argument, and
`invoked` records the keyword dict — or `self.send_404()` when
`_find_action` produced `None`. -/
inductive DispatchOutcome where
  | invoked (a : PyAction) (params : List (String × ParamVal))
  | sent404
deriving DecidableEq, Repr

/-- `_dispatch(self, form=None, files=None)` (lines 212-235): resolve the
action, then either call it with the built parameter dict or send a 404.
(The `if action and action.origin == 'error'` branch only logs.) -/
def dispatch (env : Env) (r : Request) (st : State)
    (form files : List (String × List Nat)) :
    Except PyError (DispatchOutcome × State) :=
  match findAction env r st with
  | .error e => .error e
  | .ok (some a, st1) =>
    .ok (.invoked a (buildParams (pyUrlparse r.rawPath) form files), st1)
  | .ok (none, st1) => .ok (.sent404, st1)

/-- `Action.__call__(self, *args, **kwargs)`: merge the bound keyword
arguments (`original_url` for cached actions) with the per-request ones,
the per-request ones winning on key clashes; the final keyword dict the
underlying handler function receives. -/
def actionCallKwargs (a : PyAction) (kwargs : List (String × ParamVal)) :
    List (String × ParamVal) :=
  let boundKw : List (String × ParamVal) :=
    match a.originalUrl with
    | some u => [("original_url", ParamVal.url u)]
    | none => []
  kwargs.foldl (fun acc kv => dictInsert acc kv.1 kv.2) boundKw

/-- Python tuple unpacking `(action, _) = v` where `v` is the value returned
by `_find_action`: an `Action` instance (which defines neither `__iter__`
nor `__getitem__`) or `None`.  Neither is iterable, so the unpacking raises
`TypeError` in both cases. -/
def unpackPair (v : Option PyAction) : Except PyError (PyAction × PyAction) :=
  match v with
  | none => .error .typeError
  | some _ => .error .typeError

/-- `handle_expect_100` (lines 204-210): `(action, _) = self._find_action(self.path)`,
then send a 404 and return `False` when the action's origin is `'error'`,
else defer to `super().handle_expect_100()` (which returns `True`). -/
def handleExpect100 (env : Env) (r : Request) (st : State) : Except PyError Bool :=
  match findAction env r st with
  | .error e => .error e
  | .ok (res, _) =>
    match unpackPair res with
    | .error e => .error e
    | .ok (action, _) => if action.origin = "error" then .ok false else .ok true

deriving instance DecidableEq for Except

/-! ### Concrete instances used by witnesses and counterexamples -/

/-- An import oracle in which no module name resolves to anything. -/
def emptyEnv : Env :=
  { find_spec := fun _ => .notFound, importPath := fun _ => .raises .moduleNotFoundError }

/-- A cached action, as `_save_action` would have stored it for `GET /x`. -/
def wCachedAction : PyAction := ⟨.fn 42, "direct", some ⟨"/x", ""⟩⟩

/-- A state whose Action Cache already holds `GET /x`. -/
def wCachedSt : State :=
  { actions := [("GET /x", wCachedAction)], modules := some [], fallback := false,
    sources := [] }

/-- The state of a freshly started server with no sources configured. -/
def emptySt : State :=
  { actions := [], modules := none, fallback := false, sources := [] }

/-- The Action a first resolution of `GET /a?x=1` would have cached,
carrying the bound context (the first request's parsed url, query
included). -/
def wC10Action : PyAction := ⟨.fn 7, "direct", some ⟨"/a", "x=1"⟩⟩

/-- State after that first resolution: the cache holds `GET /a`. -/
def wC10St : State :=
  { actions := [("GET /a", wC10Action)], modules := some [], fallback := false,
    sources := [] }

/-- The candidate attribute names the matcher actually computes, in order:
`'_'.join([prefix, function]).lstrip('_')` for each prefix in
`[command.lower(), 'any', '']`. -/
def candidateNames (command function : String) : List String :=
  (prefixList command).map (fun pfx => lstripUnderscore (pfx ++ "_" ++ function))

/-- A module whose only function attribute is named `_a`: a path segment
may start with an underscore (request `GET /_a`), exposing the difference
between "the bare joined tail" and the code's `lstrip('_')`. -/
def cexUnderscoreMod : PyModule := ⟨"m", [("_a", 5)]⟩

/-- A loaded catalog holding only that module. -/
def cexUnderscoreSt : State :=
  { actions := [], modules := some [("m", (cexUnderscoreMod, .module))],
    fallback := false, sources := [] }

/-- A module defining only `a` (no `a_b`): the fallback-ladder scenario of
the spec. -/
def fbMod : PyModule := ⟨"acts", [("a", 1)]⟩

/-- Catalog holding only `fbMod`, with the fallback flag as given. -/
def fbSt (fb : Bool) : State :=
  { actions := [], modules := some [("acts", (fbMod, .module))], fallback := fb,
    sources := [] }

/-- The Action `_save_action` stores when the fallback ladder matches `a`
for `GET /a/b`. -/
def fbAction : PyAction := ⟨.fn 1, "fallback", some ⟨"/a/b", ""⟩⟩

/-- Modelled from the spec (§4.2 Path Descender, for `module`-origin
handles): repeatedly resolve the next segment as a nested sub-module named
by the full dotted name accumulated from the source's root; stop at the
first segment whose spec cannot be found or whose load raises, pushing that
segment back onto the front of the unconsumed list; such failures are
non-fatal.  Used only as the reference side of the refinement proof for the
code's `_find_module`, which builds the name from the *current* module's
`__name__` instead of an accumulator. -/
def descendSpec (env : Env) (accName : String) (current : PyModule) :
    List String → PyModule × List String
  | [] => (current, [])
  | part :: rest =>
    match env.find_spec (accName ++ "." ++ part) with
    | .found (.ok m) => descendSpec env (accName ++ "." ++ part) m rest
    | _ => (current, part :: rest)

/-- Pre-registered 404 handlers: the verb-specific and the generic one. -/
def w404Get : PyAction := ⟨.fn 11, "direct", none⟩

/-- The `ANY 404` handler registered alongside `w404Get`. -/
def w404Any : PyAction := ⟨.fn 12, "direct", none⟩

/-- A state with both `GET 404` and `ANY 404` registered and an empty
catalog, so every request misses source resolution and the sweep. -/
def w404St : State :=
  { actions := [("GET 404", w404Get), ("ANY 404", w404Any)], modules := some [],
    fallback := false, sources := [] }

/-- Root module of the nested-descent witness (`source = "src"`). -/
def wC5Root : PyModule := ⟨"src", []⟩

/-- The nested submodule `src.math` with a `post_add` function. -/
def wC5Math : PyModule := ⟨"src.math", [("post_add", 3)]⟩

/-- Import oracle for the descent witness: only `src.math` resolves. -/
def wC5Env : Env :=
  { find_spec := fun n => if n = "src.math" then .found (.ok wC5Math) else .notFound,
    importPath := fun _ => .raises .moduleNotFoundError }

/-- An import oracle in which the source `bad` has a spec whose load raises
a non-`ModuleNotFoundError` exception (a module that exists but whose body
fails to import, e.g. with a `SyntaxError`). -/
def cexLoadEnv : Env :=
  { find_spec := fun n => if n = "bad" then .found (.raises .otherError) else .notFound,
    importPath := fun _ => .raises .moduleNotFoundError }

/-- A fresh state configured with the single source `bad`. -/
def cexLoadSt : State :=
  { actions := [], modules := none, fallback := false, sources := [.str "bad"] }

/-- An import oracle in which the spec *lookup* for `bad` itself raises
`ValueError` — caught inside `_find_module`, but not in
`_load_action_modules`, whose only handler is
`except ModuleNotFoundError`. -/
def cexSpecRaiseEnv : Env :=
  { find_spec := fun n => if n = "bad" then .raisesSpec .valueError else .notFound,
    importPath := fun _ => .raises .moduleNotFoundError }

/-- A catalog containing a `'path'`-origin source, as `_load_action_modules`
would have stored for `{'path': 'actions'}` had the path branch worked. -/
def wC7St : State :=
  { actions := [], modules := some [("actions", (⟨"actions", []⟩, .path))],
    fallback := false, sources := [] }

-- THEOREMS BELOW

/-! ### Basic lemmas about the dict model -/

theorem lookupStr_dictInsert {α : Type} (l : List (String × α)) (k k' : String) (v : α) :
    lookupStr (dictInsert l k v) k' = if k = k' then some v else lookupStr l k' := by
  induction l with
  | nil =>
    simp only [dictInsert, lookupStr]
  | cons kv rest ih =>
    obtain ⟨k0, v0⟩ := kv
    by_cases h0 : k0 = k
    · subst h0
      simp only [dictInsert, if_pos rfl, lookupStr]
      by_cases h1 : k0 = k' <;> simp [h1]
    · simp only [dictInsert, if_neg h0, lookupStr, ih]
      by_cases h1 : k0 = k'
      · subst h1
        have h2 : ¬ k = k0 := fun hkk => h0 (Eq.symm hkk)
        simp [h2]
      · simp [h1]

theorem loadActionModules_of_isSome (env : Env) (st : State) (h : st.modules.isSome) :
    loadActionModules env st = .ok st := by
  unfold loadActionModules
  cases hm : st.modules with
  | none => rw [hm] at h; simp at h
  | some c => rfl

theorem loadActionModules_actions (env : Env) (st st1 : State)
    (h : loadActionModules env st = .ok st1) : st1.actions = st.actions := by
  unfold loadActionModules at h
  cases hm : st.modules with
  | some c => rw [hm] at h; injection h with h'; rw [← h']
  | none =>
    rw [hm] at h
    cases hl : loadAll env [] st.sources with
    | error e => rw [hl] at h; cases h
    | ok cat => rw [hl] at h; injection h with h'; rw [← h']

/-- Shared cache-hit lemma: when the catalog is already loaded and the
identifier is in the Action Cache, `_find_action` returns the stored entry
with the state untouched, whatever the import environment. -/
theorem findAction_cache_hit (env : Env) (r : Request) (st : State) (a : PyAction)
    (hmod : st.modules.isSome)
    (hhit : lookupStr st.actions (requestIdentifier r) = some a) :
    findAction env r st = .ok (some a, st) := by
  unfold findAction
  rw [loadActionModules_of_isSome env st hmod]
  simp [hhit]

/-- C1: once an Action is cached under the identifier built from the verb
and path, every later resolution of that verb and path returns the stored
Action unchanged with the state untouched; the result does not depend on
the import/filesystem environment (so no source loading, descent or
matching can influence it); and no resolution ever evicts or overwrites an
existing cache entry. -/
theorem c1_cache_hit_idempotent (env env' : Env) (r : Request) (st : State) (a : PyAction)
    (hmod : st.modules.isSome)
    (hhit : lookupStr st.actions (requestIdentifier r) = some a) :
    findAction env r st = .ok (some a, st) ∧
    findAction env' r st = .ok (some a, st) ∧
    (∀ st2 res st2', findAction env r st2 = .ok (res, st2') →
      ∀ k v, lookupStr st2.actions k = some v → lookupStr st2'.actions k = some v) := by
  refine ⟨findAction_cache_hit env r st a hmod hhit,
    findAction_cache_hit env' r st a hmod hhit, ?_⟩
  intro st2 res st2' h k v hk
  unfold findAction at h
  split at h
  case h_1 e heq => cases h
  case h_2 st1 heq =>
    have hacts : st1.actions = st2.actions := loadActionModules_actions env st2 st1 heq
    rw [← hacts] at hk
    have hsave : ∀ (h0 : Nat) (origin : String),
        lookupStr st1.actions (requestIdentifier r) = none →
        ((match saveAction st1 (requestIdentifier r) h0 origin (pyUrlparse r.rawPath) with
          | (a, st3) => Except.ok (some a, st3)) :
            Except PyError (Option PyAction × State)) = Except.ok (res, st2') →
        lookupStr st2'.actions k = some v := by
      intro h0 origin hcache hh
      simp only [saveAction, Except.ok.injEq, Prod.mk.injEq] at hh
      rw [← hh.2]
      simp only
      rw [lookupStr_dictInsert]
      by_cases hik : requestIdentifier r = k
      · rw [hik] at hcache
        rw [hcache] at hk
        cases hk
      · rw [if_neg hik]
        exact hk
    split at h
    case h_1 a2 hcache =>
      simp only [Except.ok.injEq, Prod.mk.injEq] at h
      rw [← h.2]
      exact hk
    case h_2 hcache =>
      split at h
      case h_1 e heq2 => cases h
      case h_2 h0 origin heq2 => exact hsave h0 origin hcache h
      case h_3 heq2 =>
        split at h
        case h_1 h0 hsweep => exact hsave h0 "catchall" hcache h
        case h_2 hsweep =>
          split at h
          case h_1 stored h404 =>
            simp only [Except.ok.injEq, Prod.mk.injEq] at h
            rw [← h.2]
            exact hk
          case h_2 h404 =>
            simp only [Except.ok.injEq, Prod.mk.injEq] at h
            rw [← h.2]
            exact hk

/-- Witness for C1 at a concrete cached state: resolving `GET /x` against a
cache already holding it returns the stored Action with the state
unchanged. -/
theorem c1_cache_hit_witness :
    findAction emptyEnv ⟨"GET", "/x"⟩ wCachedSt = .ok (some wCachedAction, wCachedSt) :=
  (c1_cache_hit_idempotent emptyEnv emptyEnv ⟨"GET", "/x"⟩ wCachedSt wCachedAction
    (by decide) (by decide)).1

/-! ### Lemmas about the url splitting model -/

theorem splitAtFirst_append_of_not_mem (c : Char) (l1 l2 : List Char) (h : c ∉ l1) :
    splitAtFirst c (l1 ++ l2) =
      (l1 ++ (splitAtFirst c l2).1, (splitAtFirst c l2).2) := by
  induction l1 with
  | nil => simp [splitAtFirst]
  | cons x xs ih =>
    have hx : ¬ x = c := fun he => h (by rw [he]; exact List.mem_cons_self _ _)
    have hxs : c ∉ xs := fun hm => h (List.mem_cons_of_mem _ hm)
    simp [splitAtFirst, hx, ih hxs]

theorem splitAtFirst_append_cons (c : Char) (l1 l2 : List Char) (h : c ∉ l1) :
    splitAtFirst c (l1 ++ c :: l2) = (l1, l2) := by
  induction l1 with
  | nil => simp [splitAtFirst]
  | cons x xs ih =>
    have hx : ¬ x = c := fun he => h (by rw [he]; exact List.mem_cons_self _ _)
    have hxs : c ∉ xs := fun hm => h (List.mem_cons_of_mem _ hm)
    simp [splitAtFirst, hx, ih hxs]

/-- The path `urlparse` extracts from `p?q` is `p`, whatever the query. -/
theorem pyUrlparse_path_append_query (p q : String)
    (hq : '?' ∉ p.data) (hh : '#' ∉ p.data) :
    (pyUrlparse (p ++ "?" ++ q)).path = p := by
  have hdata : (p ++ "?" ++ q).data = (p.data ++ ['?']) ++ q.data := by
    rw [String.data_append, String.data_append]
  have hh2 : '#' ∉ p.data ++ ['?'] := by
    intro hm
    rcases List.mem_append.mp hm with h1 | h1
    · exact hh h1
    · simp at h1
  simp only [pyUrlparse, hdata]
  rw [splitAtFirst_append_of_not_mem '#' _ _ hh2]
  have hassoc : (p.data ++ ['?']) ++ (splitAtFirst '#' q.data).1 =
      p.data ++ '?' :: (splitAtFirst '#' q.data).1 := by simp
  simp only [hassoc]
  rw [splitAtFirst_append_cons '?' _ _ hq]

/-- C10: the cache identifier is built only from the upper-cased verb and
the url's path — never from the query string — so two requests with equal
verb and path but different queries share the cache key, and the second
request gets the Action (bound context included) cached by the first. -/
theorem c10_identifier_ignores_query (verb p q1 q2 : String)
    (hq : '?' ∉ p.data) (hh : '#' ∉ p.data) :
    requestIdentifier ⟨verb, p ++ "?" ++ q1⟩ = pyUpper verb ++ " " ++ p ∧
    requestIdentifier ⟨verb, p ++ "?" ++ q2⟩ = requestIdentifier ⟨verb, p ++ "?" ++ q1⟩ ∧
    (∀ env st a, st.modules.isSome →
      lookupStr st.actions (requestIdentifier ⟨verb, p ++ "?" ++ q1⟩) = some a →
      findAction env ⟨verb, p ++ "?" ++ q2⟩ st = .ok (some a, st)) := by
  have hid : ∀ q : String, requestIdentifier ⟨verb, p ++ "?" ++ q⟩ =
      pyUpper verb ++ " " ++ p := by
    intro q
    unfold requestIdentifier actionIdentifier
    rw [pyUrlparse_path_append_query p q hq hh]
  refine ⟨hid q1, (hid q2).trans (hid q1).symm, ?_⟩
  intro env st a hmod hhit
  refine findAction_cache_hit env _ st a hmod ?_
  rw [(hid q2).trans (hid q1).symm]
  exact hhit

/-- Witness for C10: with `GET /a?x=1` cached, the request `GET /a?y=2`
(same path, different query) returns the very Action cached for the first,
including its bound context. -/
theorem c10_witness :
    findAction emptyEnv ⟨"get", "/a" ++ "?" ++ "y=2"⟩ wC10St = .ok (some wC10Action, wC10St) :=
  (c10_identifier_ignores_query "get" "/a" "x=1" "y=2" (by decide) (by decide)).2.2
    emptyEnv wC10St wC10Action (by decide) (by decide)

/-! ### C2 — candidate-name priority -/

/-- C2 counterexample: with a module defining only `_a`, the claim's
candidate list for `GET /_a` ends with the bare joined tail `"_a"`, which
exists as an attribute, so the claim predicts a match; the code computes
`'_'.join(['', '_a']).lstrip('_') = "a"` instead and misses, so resolution
yields no action at all. -/
theorem c2_counterexample :
    getattrOpt cexUnderscoreMod "_a" = some 5 ∧
    getattrOpt cexUnderscoreMod "get__a" = none ∧
    getattrOpt cexUnderscoreMod "any__a" = none ∧
    lstripUnderscore ("" ++ "_" ++ "_a") = "a" ∧
    tryFunction cexUnderscoreMod "_a" (prefixList "GET") = none ∧
    findAction emptyEnv ⟨"GET", "/_a"⟩ cexUnderscoreSt = .ok (none, cexUnderscoreSt) := by
  decide

/-- C2 (amended): the matcher tries, in strict priority order, the
lowercased verb prefix, then `"any"`, then the empty prefix, each joined to
the tail with `_` and then stripped of *all leading underscores* — the
first existing attribute wins.  In particular, with both `get_a_b` and
`any_a_b` defined, `GET /a/b` resolves to `get_a_b`. -/
theorem c2_candidate_priority (m : PyModule) (command function : String) :
    tryFunction m function (prefixList command) =
      firstExistingAttr m (candidateNames command function) ∧
    (∀ h : Nat, getattrOpt m "get_a_b" = some h →
      tryFunction m "a_b" (prefixList "GET") = some h) := by
  constructor
  · rfl
  · intro h hh
    have hc : lstripUnderscore (pyLower "GET" ++ "_" ++ "a_b") = "get_a_b" := by decide
    simp only [prefixList, tryFunction, hc, hh]

/-- Witness for C2's amended theorem: a module with both `get_a_b` and
`any_a_b`; `GET /a/b`'s matcher returns the `get_a_b` handler. -/
theorem c2_candidate_priority_witness :
    tryFunction ⟨"m", [("any_a_b", 2), ("get_a_b", 1)]⟩ "a_b" (prefixList "GET") = some 1 :=
  (c2_candidate_priority ⟨"m", [("any_a_b", 2), ("get_a_b", 1)]⟩ "GET" "a_b").2 1 (by decide)

/-! ### C3 — fallback ladder -/

theorem matchLoopFuel_origin_fallback (m : PyModule) (pfxs : List String) (fb : Bool) :
    ∀ (fuel : Nat) (parts remainder : List String) (h : Nat) (o : String),
      remainder ≠ [] →
      matchLoopFuel m pfxs fb fuel parts remainder = some (h, o) → o = "fallback" := by
  intro fuel
  induction fuel with
  | zero =>
    intro parts remainder h o hrem hm
    cases parts with
    | nil => cases hm
    | cons p ps => cases hm
  | succ n ih =>
    intro parts remainder h o hrem hm
    cases parts with
    | nil => cases hm
    | cons p ps =>
      simp only [matchLoopFuel] at hm
      cases htry : tryFunction m (joinWith "_" (p :: ps)) pfxs with
      | some h0 =>
        rw [htry] at hm
        simp only [Option.some.injEq, Prod.mk.injEq] at hm
        rw [← hm.2]
        cases remainder with
        | nil => exact absurd rfl hrem
        | cons x xs => rfl
      | none =>
        rw [htry] at hm
        cases fb with
        | false => cases hm
        | true =>
          simp only [if_pos] at hm
          exact ih _ _ h o (by simp) hm

/-- C3: with only `a` defined and fallback enabled, `GET /a/b` resolves to
`a` with origin `fallback`; with fallback disabled the same request is a
miss.  In general: a hit with non-empty remainder is tagged `fallback` and
a hit on the full tail (empty remainder) is tagged `direct`; on a miss the
loop stops when fallback is disabled, and otherwise retries with the last
tail segment moved to the front of the remainder. -/
theorem c3_fallback_ladder :
    (findAction emptyEnv ⟨"GET", "/a/b"⟩ (fbSt true) =
      .ok (some fbAction, { fbSt true with actions := [("GET /a/b", fbAction)] })) ∧
    (findAction emptyEnv ⟨"GET", "/a/b"⟩ (fbSt false) = .ok (none, fbSt false)) ∧
    (∀ (m : PyModule) (pfxs : List String) (fb : Bool) (parts remainder : List String)
      (h : Nat) (o : String), remainder ≠ [] →
      matchLoop m pfxs fb parts remainder = some (h, o) → o = "fallback") ∧
    (∀ (m : PyModule) (pfxs : List String) (fb : Bool) (p : String) (ps : List String)
      (h : Nat), tryFunction m (joinWith "_" (p :: ps)) pfxs = some h →
      matchLoop m pfxs fb (p :: ps) [] = some (h, "direct")) ∧
    (∀ (m : PyModule) (pfxs : List String) (p : String) (ps remainder : List String),
      tryFunction m (joinWith "_" (p :: ps)) pfxs = none →
      matchLoop m pfxs false (p :: ps) remainder = none) ∧
    (∀ (m : PyModule) (pfxs : List String) (p : String) (ps remainder : List String),
      tryFunction m (joinWith "_" (p :: ps)) pfxs = none →
      matchLoop m pfxs true (p :: ps) remainder =
        matchLoop m pfxs true ((p :: ps).dropLast)
          ((p :: ps).getLastD "" :: remainder)) := by
  refine ⟨by decide, by decide, ?_, ?_, ?_, ?_⟩
  · intro m pfxs fb parts remainder h o hrem hm
    exact matchLoopFuel_origin_fallback m pfxs fb parts.length parts remainder h o hrem hm
  · intro m pfxs fb p ps h htry
    simp only [matchLoop, List.length_cons, matchLoopFuel, htry]
    rfl
  · intro m pfxs p ps remainder htry
    simp only [matchLoop, List.length_cons, matchLoopFuel, htry]
    rfl
  · intro m pfxs p ps remainder htry
    simp only [matchLoop, List.length_cons, matchLoopFuel, htry, if_pos]
    rw [List.length_dropLast, List.length_cons]
    rfl

/-- Witness for C3's general clauses: the fallback step at the concrete
scenario — `GET /a/b` against a module defining only `a`, fallback enabled,
matches with origin `fallback` after one ladder step. -/
theorem c3_fallback_witness :
    matchLoop fbMod (prefixList "GET") true ["a", "b"] [] =
      matchLoop fbMod (prefixList "GET") true ["a"] ["b"] ∧
    matchLoop fbMod (prefixList "GET") true ["a", "b"] [] = some (1, "fallback") := by
  constructor
  · exact (c3_fallback_ladder).2.2.2.2.2 fbMod (prefixList "GET") "a" ["b"] [] (by decide)
  · decide

/-! ### C4 — 404 error lookup -/

/-- C4: when source resolution and the global catch-all sweep both come up
empty (and the identifier is not cached), `_find_action` answers from the
pre-registered 404 actions: the identifiers `'<VERB> 404'`, `'ANY 404'`,
`'404'` are checked in that priority order, the hit is wrapped in a freshly
created Action with origin `error` whose callable is the stored entry, and
the state — in particular the Action Cache — is left untouched, so the
wrap is rebuilt on every miss. -/
theorem c4_error_lookup (env : Env) (r : Request) (st : State)
    (cat : List (String × PyModule × SourceOrigin))
    (hmod : st.modules = some cat)
    (hmiss : lookupStr st.actions (requestIdentifier r) = none)
    (hsrc : resolveViaSources env r.command r.rawPath st.fallback cat = .ok none)
    (hsweep : catchallSweep r.command cat = none) :
    findAction env r st = .ok ((lookup404 st.actions r.command).map errorAction, st) ∧
    (∀ a, lookupStr st.actions (pyStrip (r.command ++ " " ++ "404")) = some a →
      findAction env r st = .ok (some (errorAction a), st)) ∧
    (lookupStr st.actions (pyStrip (r.command ++ " " ++ "404")) = none →
      lookup404 st.actions r.command =
        match lookupStr st.actions "ANY 404" with
        | some a => some a
        | none => lookupStr st.actions "404") ∧
    (∀ a, (errorAction a).origin = "error" ∧
      (errorAction a).handler = .wrap a.handler a.origin a.originalUrl) := by
  have hm2 : st.modules.isSome := by rw [hmod]; rfl
  have hcore : findAction env r st =
      .ok ((lookup404 st.actions r.command).map errorAction, st) := by
    unfold findAction
    rw [loadActionModules_of_isSome env st hm2]
    simp only [hmiss, hmod, Option.getD_some, hsrc, hsweep]
    cases h404 : lookup404 st.actions r.command with
    | some stored => simp
    | none => simp
  refine ⟨hcore, ?_, ?_, ?_⟩
  · intro a ha
    rw [hcore]
    have : lookup404 st.actions r.command = some a := by
      simp only [lookup404, lookup404Go, ha]
    rw [this]
    rfl
  · intro hnone
    simp only [lookup404, lookup404Go, hnone]
    rw [(by decide : pyStrip ("ANY" ++ " " ++ "404") = "ANY 404"),
      (by decide : pyStrip ("" ++ " " ++ "404") = "404")]
    cases lookupStr st.actions "ANY 404" with
    | some a => rfl
    | none =>
      cases lookupStr st.actions "404" with
      | some a => rfl
      | none => rfl
  · intro a
    exact ⟨rfl, rfl⟩

/-- Witness for C4: with both `GET 404` and `ANY 404` registered and
everything else missing, `GET /nowhere` returns the `GET 404` handler,
wrapped with origin `error`, and the state is unchanged. -/
theorem c4_error_lookup_witness :
    findAction emptyEnv ⟨"GET", "/nowhere"⟩ w404St =
      .ok (some (errorAction w404Get), w404St) :=
  (c4_error_lookup emptyEnv ⟨"GET", "/nowhere"⟩ w404St [] rfl (by decide)
    (by decide) (by decide)).2.1 w404Get (by decide)

/-! ### C5 — module-origin descent -/

/-- C5: for `module`-origin handles, `_find_module` descends exactly as the
spec's root-accumulated dotted-name rule prescribes — provided the import
system is well-named (a module loaded for name `n` has `__name__ = n`, which
Python's import machinery guarantees) and `find_spec` only raises the caught
`ModuleNotFoundError`/`ValueError`.  In particular a failing spec lookup or
a raising load is non-fatal: the offending segment is pushed back onto the
unconsumed list (where the caller reinterprets it as part of the function
name). -/
theorem c5_module_descent (env : Env)
    (hwell : ∀ n m, env.find_spec n = .found (.ok m) → m.name = n)
    (hcaught : ∀ n e, env.find_spec n = .raisesSpec e →
      e = .moduleNotFoundError ∨ e = .valueError) :
    (∀ root parts, findModuleM env root parts =
      .ok (descendSpec env root.name root parts)) ∧
    (∀ (root : PyModule) (part : String) (rest : List String) (e : PyError),
      env.find_spec (root.name ++ "." ++ part) = .found (.raises e) →
      findModuleM env root (part :: rest) = .ok (root, part :: rest)) := by
  constructor
  · intro root parts
    induction parts generalizing root with
    | nil => rfl
    | cons part rest ih =>
      cases hfs : env.find_spec (root.name ++ "." ++ part) with
      | notFound => simp [findModuleM, descendSpec, hfs]
      | raisesSpec e =>
        have he := hcaught _ e hfs
        simp [findModuleM, descendSpec, hfs, he]
      | found lr =>
        cases lr with
        | raises e => simp [findModuleM, descendSpec, hfs]
        | ok m =>
          have hname := hwell _ m hfs
          simp only [findModuleM, descendSpec, hfs]
          rw [ih m, hname]
  · intro root part rest e hfs
    simp [findModuleM, hfs]

/-- Witness for C5: descending `POST /math/add` into source `src`, the
segment `math` loads `src.math` and `add` fails to resolve, leaving
`(src.math, ["add"])`. -/
theorem c5_module_descent_witness :
    findModuleM wC5Env wC5Root ["math", "add"] = .ok (wC5Math, ["add"]) := by
  have hwell : ∀ n m, wC5Env.find_spec n = .found (.ok m) → m.name = n := by
    intro n m h
    by_cases hn : n = "src.math"
    · subst hn
      have h0 : wC5Env.find_spec "src.math" = .found (.ok wC5Math) := rfl
      rw [h0] at h
      injection h with h1
      injection h1 with h2
      rw [← h2]
      rfl
    · have h0 : wC5Env.find_spec n = .notFound := by simp [wC5Env, hn]
      rw [h0] at h
      cases h
  have hcaught : ∀ n e, wC5Env.find_spec n = .raisesSpec e →
      e = .moduleNotFoundError ∨ e = .valueError := by
    intro n e h
    by_cases hn : n = "src.math"
    · subst hn
      have h0 : wC5Env.find_spec "src.math" = .found (.ok wC5Math) := rfl
      rw [h0] at h
      cases h
    · have h0 : wC5Env.find_spec n = .notFound := by simp [wC5Env, hn]
      rw [h0] at h
      cases h
  have h := (c5_module_descent wC5Env hwell hcaught).1 wC5Root ["math", "add"]
  rw [h]
  decide

/-! ### C6 — source loading -/

/-- C6 counterexample: a configured source that exists but whose load
raises something other than `ModuleNotFoundError` is not silently dropped —
the exception escapes `_load_action_modules` (whose only handler is
`except ModuleNotFoundError: pass`) and reaches the caller of
`_find_action`. -/
theorem c6_counterexample :
    loadActionModules cexLoadEnv cexLoadSt = .error .otherError ∧
    findAction cexLoadEnv ⟨"GET", "/x"⟩ cexLoadSt = .error .otherError := by
  decide

/-- C6 (amended): loading runs at most once per process (a no-op once the
catalog exists); a source that cannot be *found* — `find_spec` returns no
spec, or the lookup or load raises `ModuleNotFoundError` — is silently
dropped, contributes no handlers and is never retried; but a source whose
spec lookup or load raises any other exception propagates it to the
caller. -/
theorem c6_source_load (env : Env) :
    (∀ st, st.modules.isSome → loadActionModules env st = .ok st) ∧
    (∀ s, env.find_spec s = .notFound → loadOne env (.str s) = .ok none) ∧
    (∀ s, env.find_spec s = .raisesSpec .moduleNotFoundError →
      loadOne env (.str s) = .ok none) ∧
    (∀ s, env.find_spec s = .found (.raises .moduleNotFoundError) →
      loadOne env (.str s) = .ok none) ∧
    (∀ s e, e ≠ .moduleNotFoundError → env.find_spec s = .raisesSpec e →
      loadOne env (.str s) = .error e) ∧
    (∀ s e, e ≠ .moduleNotFoundError → env.find_spec s = .found (.raises e) →
      loadOne env (.str s) = .error e) ∧
    (∀ acc items, (∀ it ∈ items, loadOne env it = .ok none) →
      loadAll env acc items = .ok acc) := by
  refine ⟨fun st h => loadActionModules_of_isSome env st h, ?_, ?_, ?_, ?_, ?_, ?_⟩
  · intro s h
    simp [loadOne, h]
  · intro s h
    simp [loadOne, h]
  · intro s h
    simp [loadOne, h]
  · intro s e hne h
    simp [loadOne, h, hne]
  · intro s e hne h
    simp [loadOne, h, hne]
  · intro acc items h
    induction items with
    | nil => rfl
    | cons it rest ih =>
      have h1 : loadOne env it = .ok none := h it (List.mem_cons_self _ _)
      have h2 : ∀ it2 ∈ rest, loadOne env it2 = .ok none :=
        fun it2 hm => h it2 (List.mem_cons_of_mem _ hm)
      simp only [loadAll, h1]
      exact ih h2

/-- Witness for C6's amended theorem: a missing source is silently dropped
and a catalog of dropped sources stays empty; a source whose spec lookup
itself raises a non-`ModuleNotFoundError` propagates the exception. -/
theorem c6_source_load_witness :
    loadOne emptyEnv (.str "missing") = .ok none ∧
    loadAll emptyEnv [] [.str "missing"] = .ok [] ∧
    loadOne cexSpecRaiseEnv (.str "bad") = .error .valueError :=
  ⟨(c6_source_load emptyEnv).2.1 "missing" rfl,
   (c6_source_load emptyEnv).2.2.2.2.2.2 [] [.str "missing"]
     (by intro it hm; simp at hm; rw [hm]; exact (c6_source_load emptyEnv).2.1 "missing" rfl),
   (c6_source_load cexSpecRaiseEnv).2.2.2.2.1 "bad" .valueError (by decide) rfl⟩

/-! ### C7 — path-origin descent -/

/-- C7 (code bug): the `'path'` branch of `_find_module` can never descend
into subdirectories or import the final file module, because the local
variable `base` is read before any assignment — every execution of the
branch raises `UnboundLocalError`, which propagates out of `_find_action`
for any catalog that contains a `'path'`-origin source. -/
theorem c7_path_descent_unbound_base :
    (∀ parts, findModulePath parts = .error (.nameError "base")) ∧
    (∀ (env : Env) (m : PyModule) (parts : List String),
      findModule env (m, .path) parts = .error (.nameError "base")) ∧
    findAction emptyEnv ⟨"GET", "/ping"⟩ wC7St = .error (.nameError "base") := by
  refine ⟨?_, ?_, by decide⟩
  · intro parts
    cases parts with
    | nil => rfl
    | cons p ps => rfl
  · intro env m parts
    cases parts with
    | nil => rfl
    | cons p ps => rfl

/-! ### C8 — pre-flight short-circuit -/

/-- C8 (code bug): `handle_expect_100` writes
`(action, _) = self._find_action(self.path)`, but `_find_action` returns a
single `Optional[Action]`; neither an `Action` instance nor `None` is
iterable, so the unpacking raises `TypeError` on every request that reaches
the handler — the `origin == 'error'` short-circuit described by the spec
is never evaluated. -/
theorem c8_expect100_raises_type_error (env : Env) (r : Request) (st : State)
    (res : Option PyAction) (st' : State)
    (h : findAction env r st = .ok (res, st')) :
    handleExpect100 env r st = .error .typeError := by
  unfold handleExpect100
  rw [h]
  cases res with
  | none => rfl
  | some a => rfl

/-- Witness for C8: on a fresh server, a `GET /ping` carrying
`Expect: 100-continue` makes `handle_expect_100` raise `TypeError`. -/
theorem c8_expect100_witness :
    handleExpect100 emptyEnv ⟨"GET", "/ping"⟩ emptySt = .error .typeError :=
  c8_expect100_raises_type_error emptyEnv ⟨"GET", "/ping"⟩ emptySt none
    { emptySt with modules := some [] } (by decide)

/-! ### C9 — dispatch parameter set -/

/-- C9: for every resolved Action, `_dispatch` invokes it with the request
handler as the only positional argument and a keyword set consisting of
exactly `url` (always), `query` iff the query string is non-empty, `form`
iff form fields are present and `files` iff uploads are present; when
resolution yields nothing, a protocol-level 404 is sent and no handler is
invoked. -/
theorem c9_dispatch_parameters (env : Env) (r : Request) (st : State)
    (form files : List (String × List Nat)) :
    (∀ a st', findAction env r st = .ok (some a, st') →
      dispatch env r st form files =
        .ok (.invoked a (buildParams (pyUrlparse r.rawPath) form files), st')) ∧
    ((buildParams (pyUrlparse r.rawPath) form files).map Prod.fst =
      ["url"] ++ (if (pyUrlparse r.rawPath).query ≠ "" then ["query"] else []) ++
      (if form ≠ [] then ["form"] else []) ++ (if files ≠ [] then ["files"] else [])) ∧
    (∀ st', findAction env r st = .ok (none, st') →
      dispatch env r st form files = .ok (.sent404, st')) := by
  refine ⟨?_, ?_, ?_⟩
  · intro a st' h
    unfold dispatch
    rw [h]
  · unfold buildParams
    by_cases hq : (pyUrlparse r.rawPath).query ≠ "" <;>
      by_cases hf : form ≠ [] <;> by_cases hl : files ≠ [] <;>
        simp [hq, hf, hl]
  · intro st' h
    unfold dispatch
    rw [h]

/-- Witness for C9: the total-miss scenario — no sources, no catch-alls, no
error handlers; `GET /nowhere` dispatches to a 404 without invoking any
handler. -/
theorem c9_dispatch_witness :
    dispatch emptyEnv ⟨"GET", "/nowhere"⟩ emptySt [] [] =
      .ok (.sent404, { emptySt with modules := some [] }) :=
  (c9_dispatch_parameters emptyEnv ⟨"GET", "/nowhere"⟩ emptySt [] []).2.2
    { emptySt with modules := some [] } (by decide)

end SimpleActionServer
